import Mathlib

/-!
Verification of the Bulkhead / concurrency-admission middleware of the
fastmvc-middleware repository (`FastMiddleware/bulkhead.py`).

The embedding is shallow:

* `BulkheadConfig` mirrors the `BulkheadConfig` dataclass (the `path_limits`
  dict is modelled as a partial function `String → Option Nat`, with `none`
  for an absent key, matching `dict.get`).
* `GateState` mirrors the mutable fields of `BulkheadMiddleware`:
  `_waiting` (a Python int, modelled as `Int`), `_semaphore` (an
  `asyncio.Semaphore`, modelled by its free-permit count), and
  `_path_semaphores` (a dict of semaphores, modelled as a partial map from
  path to free-permit count).
* `getSemaphore` mirrors `BulkheadMiddleware._get_semaphore`; the returned
  semaphore object is identified by its registry key (`SemKey`), since the
  dict entry and the returned reference alias the same semaphore.
* `dispatch` mirrors `BulkheadMiddleware.dispatch` executed by a single
  request with no interleaved requests: `asyncio.Semaphore.acquire` returns
  immediately when the internal counter is positive, and otherwise — with no
  concurrent `release` arriving during the wait — `asyncio.wait_for` expires
  after `timeout` and raises `TimeoutError`.  The downstream
  `call_next` outcome is an abstract `Except ε ρ` (`Except.error` covering
  any raised exception, cancellation included); dispatch either returns a
  middleware-built `JSONResponse` or propagates the downstream outcome.
* Interleaved executions are modelled by the labelled transition system
  `Step` further below, whose atomic steps are at least as fine-grained as
  the atomic slices of the asyncio event loop running `dispatch`, so every
  behaviour of the code is a behaviour of the transition system.
-/

/-- Mirror of the `BulkheadConfig` dataclass (defaults from the source;
`path_limits = None` is turned into the empty dict by `__post_init__`,
modelled as the everywhere-`none` map). -/
structure BulkheadConfig where
  max_concurrent : Nat := 100
  max_waiting : Nat := 50
  timeout : Rat := 30
  per_path : Bool := false
  path_limits : String → Option Nat := fun _ => none

/-- The mutable gate state of a `BulkheadMiddleware` instance: `_waiting`,
the free-permit count of `_semaphore`, and `_path_semaphores` as a map from
path to free-permit count (`none` = no entry in the dict). -/
structure GateState where
  waiting : Int
  semaphore : Nat
  path_semaphores : String → Option Nat

/-- Identity of a semaphore in the registry: the global `_semaphore`, or the
`_path_semaphores` entry for a path. -/
inductive SemKey where
  | global
  | path (p : String)
deriving DecidableEq

/-- Free permits of the semaphore identified by a key (0 for an absent
per-path entry, which `_get_semaphore` never returns). -/
def semValue (g : GateState) : SemKey → Nat
  | SemKey.global => g.semaphore
  | SemKey.path p => (g.path_semaphores p).getD 0

/-- Overwrite the free-permit count of the semaphore identified by a key. -/
def setSem (g : GateState) : SemKey → Nat → GateState
  | SemKey.global, v => { g with semaphore := v }
  | SemKey.path p, v =>
      { g with path_semaphores := fun q => if q = p then some v else g.path_semaphores q }

/-- Mirror of `BulkheadMiddleware._get_semaphore`: if `per_path` is false,
return the global semaphore; otherwise create the per-path entry on first
access, sized `path_limits.get(path, max_concurrent)`, and return it. -/
def getSemaphore (cfg : BulkheadConfig) (g : GateState) (path : String) :
    SemKey × GateState :=
  if cfg.per_path = false then (SemKey.global, g)
  else
    match g.path_semaphores path with
    | some _ => (SemKey.path path, g)
    | none =>
        (SemKey.path path,
          setSem g (SemKey.path path) ((cfg.path_limits path).getD cfg.max_concurrent))

/-- Modelled from the spec: the base class `FastMVCMiddleware`
(`FastMiddleware/base.py`) is not among the sources; per the spec, dispatch
is skipped exactly when the request path matches an exclusion rule supplied
to the middleware (`exclude_paths`). -/
def should_skip (excl : List String) (path : String) : Bool :=
  excl.contains path

/-- Body of a `JSONResponse` built by the middleware. -/
structure JSONBody where
  error : Bool
  message : String
  retry_after : Option Nat
deriving DecidableEq

/-- A `JSONResponse` built by the middleware: status code, JSON body,
extra headers. -/
structure JSONRes where
  status_code : Nat
  content : JSONBody
  headers : List (String × String)
deriving DecidableEq

/-- The overload response of `dispatch` (source lines 102–110). -/
def overloadResponse : JSONRes :=
  { status_code := 503
    content := { error := true, message := "Service overloaded", retry_after := some 5 }
    headers := [("Retry-After", "5")] }

/-- The timeout response of `dispatch` (source lines 119–125): no custom
headers, so no `Retry-After`. -/
def timeoutResponse : JSONRes :=
  { status_code := 503
    content := { error := true, message := "Request timeout waiting for resources",
                 retry_after := none }
    headers := [] }

/-- What `dispatch` returns on the non-raising paths: a middleware-built
`JSONResponse`, or the downstream handler's response, untouched. -/
inductive DispatchResult (ρ : Type) where
  | middleware (r : JSONRes)
  | downstream (r : ρ)
deriving DecidableEq

/-- Mirror of `BulkheadMiddleware.dispatch` for one request running without
interleaving (see the module docstring): skip check, semaphore resolution,
overload check against `_waiting`, bounded acquire (immediate success iff a
permit is free, else timeout with `_waiting` restored by the `finally`),
downstream call, and unconditional release in the second `finally`. -/
def dispatch {ε ρ : Type} (cfg : BulkheadConfig) (excl : List String)
    (g : GateState) (path : String) (next : Except ε ρ) :
    Except ε (DispatchResult ρ) × GateState :=
  if should_skip excl path then (next.map DispatchResult.downstream, g)
  else
    let key := (getSemaphore cfg g path).1
    let g1 := (getSemaphore cfg g path).2
    if g1.waiting ≥ (cfg.max_waiting : Int) then
      (Except.ok (DispatchResult.middleware overloadResponse), g1)
    else if semValue g1 key = 0 then
      (Except.ok (DispatchResult.middleware timeoutResponse), g1)
    else
      let g2 := setSem g1 key (semValue g1 key - 1)
      let g3 := setSem g2 key (semValue g2 key + 1)
      (match next with
       | Except.ok r => Except.ok (DispatchResult.downstream r)
       | Except.error e => Except.error e, g3)

/-- The gate state created by `BulkheadMiddleware.__init__`: `_waiting = 0`,
`_semaphore = asyncio.Semaphore(config.max_concurrent)`, empty
`_path_semaphores`. -/
def initGate (cfg : BulkheadConfig) : GateState :=
  { waiting := 0, semaphore := cfg.max_concurrent, path_semaphores := fun _ => none }

/-- A constructed `BulkheadMiddleware` instance. -/
structure Middleware where
  exclude_paths : List String
  config : BulkheadConfig
  gate : GateState

/-- Mirror of `BulkheadMiddleware.__init__`: `config or BulkheadConfig()`,
then the truthiness check `if max_concurrent:` (`None` and `0` are falsy)
before overwriting `config.max_concurrent`, then the gate fields. -/
def BulkheadMiddleware_mk (config : Option BulkheadConfig)
    (max_concurrent : Option Nat) (exclude_paths : Option (List String)) :
    Middleware :=
  let cfg0 := match config with
    | some c => c
    | none => {}
  let cfg := match max_concurrent with
    | some v => if v != 0 then { cfg0 with max_concurrent := v } else cfg0
    | none => cfg0
  { exclude_paths := exclude_paths.getD []
    config := cfg
    gate := initGate cfg }

/-- Folding `dispatch` over a list of downstream outcomes: sequential,
non-overlapping requests to the same path. -/
def dispatchIter {ε ρ : Type} (cfg : BulkheadConfig) (excl : List String)
    (path : String) (nexts : List (Except ε ρ)) (g : GateState) : GateState :=
  nexts.foldl (fun st nx => (dispatch cfg excl st path nx).2) g

/-- Phase of one non-skipped in-flight request inside `dispatch`: arrived
(before `_get_semaphore`), semaphore resolved (before the `_waiting` check),
rejected by the overload check, counted in `_waiting` and blocked in
`wait_for(semaphore.acquire())`, timed out, executing `call_next` while
holding a permit, or finished after `semaphore.release()`. -/
inductive RPhase where
  | start (path : String)
  | resolved (key : SemKey)
  | rejected
  | waiting (key : SemKey)
  | timedOut
  | executing (key : SemKey)
  | done
deriving DecidableEq

/-- Global state of the interleaved system: the middleware's gate state plus
the phases of the requests seen so far. -/
structure SysState where
  gate : GateState
  reqs : List RPhase

/-- System state right after `__init__`: fresh gate, no requests. -/
def initState (cfg : BulkheadConfig) : SysState :=
  { gate := initGate cfg, reqs := [] }

/-- One atomic step of the interleaved execution of `dispatch` by many
requests.  Steps are at least as fine-grained as the atomic slices between
`await` points in the source, so the reachable states of the code form a
subset of the reachable states here.  Transitions per source line: `resolve`
is line 98 (`_get_semaphore`, creating the pool entry if needed); `reject`
is lines 101–110; `enterWait` is line 112 (`_waiting += 1`); `acquire` is a
successful `wait_for(semaphore.acquire())` plus the `finally` decrement
(lines 114–127); `timeout` is the `TimeoutError` branch plus the same
`finally` (lines 118–127); `finish` is `semaphore.release()` in the final
`finally` (line 132). -/
inductive Step (cfg : BulkheadConfig) : SysState → SysState → Prop where
  | arrive (s : SysState) (path : String) :
      Step cfg s { gate := s.gate, reqs := s.reqs ++ [RPhase.start path] }
  | resolve (s : SysState) (i : Nat) (path : String)
      (h : s.reqs[i]? = some (RPhase.start path)) :
      Step cfg s { gate := (getSemaphore cfg s.gate path).2,
                   reqs := s.reqs.set i (RPhase.resolved (getSemaphore cfg s.gate path).1) }
  | reject (s : SysState) (i : Nat) (key : SemKey)
      (h : s.reqs[i]? = some (RPhase.resolved key))
      (hw : s.gate.waiting ≥ (cfg.max_waiting : Int)) :
      Step cfg s { gate := s.gate, reqs := s.reqs.set i RPhase.rejected }
  | enterWait (s : SysState) (i : Nat) (key : SemKey)
      (h : s.reqs[i]? = some (RPhase.resolved key))
      (hw : s.gate.waiting < (cfg.max_waiting : Int)) :
      Step cfg s { gate := { s.gate with waiting := s.gate.waiting + 1 },
                   reqs := s.reqs.set i (RPhase.waiting key) }
  | acquire (s : SysState) (i : Nat) (key : SemKey)
      (h : s.reqs[i]? = some (RPhase.waiting key))
      (hv : 0 < semValue s.gate key) :
      Step cfg s { gate := { setSem s.gate key (semValue s.gate key - 1) with
                             waiting := s.gate.waiting - 1 },
                   reqs := s.reqs.set i (RPhase.executing key) }
  | timeout (s : SysState) (i : Nat) (key : SemKey)
      (h : s.reqs[i]? = some (RPhase.waiting key)) :
      Step cfg s { gate := { s.gate with waiting := s.gate.waiting - 1 },
                   reqs := s.reqs.set i RPhase.timedOut }
  | finish (s : SysState) (i : Nat) (key : SemKey)
      (h : s.reqs[i]? = some (RPhase.executing key)) :
      Step cfg s { gate := setSem s.gate key (semValue s.gate key + 1),
                   reqs := s.reqs.set i RPhase.done }

/-- States reachable from the freshly constructed middleware. -/
def Reachable (cfg : BulkheadConfig) : SysState → Prop :=
  Relation.ReflTransGen (Step cfg) (initState cfg)

/-- Number of requests currently holding a permit of the given semaphore. -/
def held (l : List RPhase) (k : SemKey) : Nat :=
  l.countP (fun r => decide (r = RPhase.executing k))

/-- Whether a request phase is counted in `_waiting`. -/
def isWaitingPhase : RPhase → Bool
  | RPhase.waiting _ => true
  | _ => false

/-- Number of requests currently counted in `_waiting`. -/
def waitCount (l : List RPhase) : Nat :=
  l.countP isWaitingPhase

/-- The semaphore a request phase refers to, if any. -/
def keyOf : RPhase → Option SemKey
  | RPhase.resolved k => some k
  | RPhase.waiting k => some k
  | RPhase.executing k => some k
  | _ => none

/-- The permit limit of a partition: `path_limits[path]` if present, else
`max_concurrent` (the size `_get_semaphore` gives the pool). -/
def limitOf (cfg : BulkheadConfig) : SemKey → Nat
  | SemKey.global => cfg.max_concurrent
  | SemKey.path p => (cfg.path_limits p).getD cfg.max_concurrent

/-- Inductive invariant of the transition system: `_waiting` counts exactly
the requests blocked in the wait, every semaphore's free permits plus held
permits equal its creation size, and any request whose phase refers to a
per-path semaphore has its pool entry present. -/
structure GateInv (cfg : BulkheadConfig) (s : SysState) : Prop where
  waiting_eq : s.gate.waiting = (waitCount s.reqs : Int)
  global_eq : s.gate.semaphore + held s.reqs SemKey.global = cfg.max_concurrent
  path_eq : ∀ p v, s.gate.path_semaphores p = some v →
      v + held s.reqs (SemKey.path p) = limitOf cfg (SemKey.path p)
  live : ∀ r ∈ s.reqs, ∀ p, keyOf r = some (SemKey.path p) →
      (s.gate.path_semaphores p).isSome = true

/-- The configuration of the C5 scenario. -/
def cfgC5 : BulkheadConfig :=
  { max_concurrent := 1, max_waiting := 0, timeout := 1 }

/-- A per-path configuration with zero queue capacity, used to exhibit
pool-map creation on the overload-reject path. -/
def cfgC6 : BulkheadConfig :=
  { max_waiting := 0, per_path := true }

/-- The configuration of the C8 partition-isolation scenario
(`path_limits = {"/a": 1, "/b": 1}`), with `max_waiting = 1` so that a
single waiter fills the shared queue. -/
def cfgC8 : BulkheadConfig :=
  { max_concurrent := 1, max_waiting := 1, timeout := 1, per_path := true
    path_limits := fun p => if p = "/a" then some 1 else if p = "/b" then some 1 else none }

theorem setSem_waiting (g : GateState) (k : SemKey) (v : Nat) :
    (setSem g k v).waiting = g.waiting := by
  cases k <;> rfl

theorem setSem_semaphore_path (g : GateState) (p : String) (v : Nat) :
    (setSem g (SemKey.path p) v).semaphore = g.semaphore := rfl

theorem semValue_setSem_self (g : GateState) (k : SemKey) (v : Nat) :
    semValue (setSem g k v) k = v := by
  cases k <;> simp [setSem, semValue]

theorem semValue_setSem_of_ne (g : GateState) (k k' : SemKey) (v : Nat)
    (h : k' ≠ k) : semValue (setSem g k v) k' = semValue g k' := by
  cases k <;> cases k' <;> simp_all [setSem, semValue]

theorem setSem_path_semaphores_self (g : GateState) (p : String) (v : Nat) :
    (setSem g (SemKey.path p) v).path_semaphores p = some v := by
  simp [setSem]

theorem setSem_path_semaphores_of_ne (g : GateState) (p : String) (v : Nat)
    (q : String) (h : q ≠ p) :
    (setSem g (SemKey.path p) v).path_semaphores q = g.path_semaphores q := by
  simp [setSem, h]

theorem setSem_path_semaphores_global (g : GateState) (v : Nat) :
    (setSem g SemKey.global v).path_semaphores = g.path_semaphores := rfl

theorem getSemaphore_of_per_path_false (cfg : BulkheadConfig) (g : GateState)
    (path : String) (h : cfg.per_path = false) :
    getSemaphore cfg g path = (SemKey.global, g) := by
  simp [getSemaphore, h]

theorem getSemaphore_hit (cfg : BulkheadConfig) (g : GateState) (path : String)
    (v : Nat) (hp : cfg.per_path = true) (h : g.path_semaphores path = some v) :
    getSemaphore cfg g path = (SemKey.path path, g) := by
  simp [getSemaphore, hp, h]

theorem getSemaphore_miss (cfg : BulkheadConfig) (g : GateState) (path : String)
    (hp : cfg.per_path = true) (h : g.path_semaphores path = none) :
    getSemaphore cfg g path =
      (SemKey.path path,
        setSem g (SemKey.path path) ((cfg.path_limits path).getD cfg.max_concurrent)) := by
  simp [getSemaphore, hp, h]

theorem getSemaphore_waiting (cfg : BulkheadConfig) (g : GateState) (path : String) :
    ((getSemaphore cfg g path).2).waiting = g.waiting := by
  by_cases hp : cfg.per_path = false
  · rw [getSemaphore_of_per_path_false cfg g path hp]
  · rw [Bool.not_eq_false] at hp
    cases h : g.path_semaphores path with
    | some v => rw [getSemaphore_hit cfg g path v hp h]
    | none => rw [getSemaphore_miss cfg g path hp h]; exact setSem_waiting ..

theorem getSemaphore_semaphore (cfg : BulkheadConfig) (g : GateState) (path : String) :
    ((getSemaphore cfg g path).2).semaphore = g.semaphore := by
  by_cases hp : cfg.per_path = false
  · rw [getSemaphore_of_per_path_false cfg g path hp]
  · rw [Bool.not_eq_false] at hp
    cases h : g.path_semaphores path with
    | some v => rw [getSemaphore_hit cfg g path v hp h]
    | none => rw [getSemaphore_miss cfg g path hp h]; rfl

theorem getSemaphore_pools_mono (cfg : BulkheadConfig) (g : GateState)
    (path p : String) (v : Nat) (h : g.path_semaphores p = some v) :
    ((getSemaphore cfg g path).2).path_semaphores p = some v := by
  by_cases hp : cfg.per_path = false
  · rw [getSemaphore_of_per_path_false cfg g path hp]; exact h
  · rw [Bool.not_eq_false] at hp
    cases hm : g.path_semaphores path with
    | some w => rw [getSemaphore_hit cfg g path w hp hm]; exact h
    | none =>
        rw [getSemaphore_miss cfg g path hp hm]
        by_cases hq : p = path
        · subst hq; rw [h] at hm; exact absurd hm (by simp)
        · rw [setSem_path_semaphores_of_ne g path _ p hq]; exact h

theorem dispatch_of_skip {ε ρ : Type} (cfg : BulkheadConfig) (excl : List String)
    (g : GateState) (path : String) (next : Except ε ρ)
    (h : should_skip excl path = true) :
    dispatch cfg excl g path next = (next.map DispatchResult.downstream, g) := by
  simp [dispatch, h]

theorem dispatch_of_overload {ε ρ : Type} (cfg : BulkheadConfig) (excl : List String)
    (g : GateState) (path : String) (next : Except ε ρ)
    (hs : should_skip excl path = false)
    (hw : g.waiting ≥ (cfg.max_waiting : Int)) :
    dispatch cfg excl g path next =
      (Except.ok (DispatchResult.middleware overloadResponse),
       (getSemaphore cfg g path).2) := by
  have hw1 : ((getSemaphore cfg g path).2).waiting ≥ (cfg.max_waiting : Int) := by
    rw [getSemaphore_waiting]; exact hw
  simp [dispatch, hs, hw1]

theorem dispatch_of_timeout {ε ρ : Type} (cfg : BulkheadConfig) (excl : List String)
    (g : GateState) (path : String) (next : Except ε ρ)
    (hs : should_skip excl path = false)
    (hw : g.waiting < (cfg.max_waiting : Int))
    (hz : semValue (getSemaphore cfg g path).2 (getSemaphore cfg g path).1 = 0) :
    dispatch cfg excl g path next =
      (Except.ok (DispatchResult.middleware timeoutResponse),
       (getSemaphore cfg g path).2) := by
  have hw1 : ¬ ((getSemaphore cfg g path).2).waiting ≥ (cfg.max_waiting : Int) := by
    rw [getSemaphore_waiting]; exact not_le.mpr hw
  simp [dispatch, hs, hw1, hz]

theorem dispatch_of_acquired {ε ρ : Type} (cfg : BulkheadConfig) (excl : List String)
    (g : GateState) (path : String) (next : Except ε ρ)
    (hs : should_skip excl path = false)
    (hw : g.waiting < (cfg.max_waiting : Int))
    (hz : 0 < semValue (getSemaphore cfg g path).2 (getSemaphore cfg g path).1) :
    dispatch cfg excl g path next =
      (next.map DispatchResult.downstream,
       setSem (setSem (getSemaphore cfg g path).2 (getSemaphore cfg g path).1
           (semValue (getSemaphore cfg g path).2 (getSemaphore cfg g path).1 - 1))
         (getSemaphore cfg g path).1
         (semValue (setSem (getSemaphore cfg g path).2 (getSemaphore cfg g path).1
             (semValue (getSemaphore cfg g path).2 (getSemaphore cfg g path).1 - 1))
           (getSemaphore cfg g path).1 + 1)) := by
  have hw1 : ¬ ((getSemaphore cfg g path).2).waiting ≥ (cfg.max_waiting : Int) := by
    rw [getSemaphore_waiting]; exact not_le.mpr hw
  have hz1 : ¬ semValue (getSemaphore cfg g path).2 (getSemaphore cfg g path).1 = 0 :=
    Nat.pos_iff_ne_zero.mp hz
  cases next <;> simp [dispatch, hs, hw1, hz1, Except.map]

theorem dispatch_admit_semValue {ε ρ : Type} (cfg : BulkheadConfig) (excl : List String)
    (g : GateState) (path : String) (next : Except ε ρ)
    (hs : should_skip excl path = false)
    (hw : g.waiting < (cfg.max_waiting : Int))
    (hz : 0 < semValue (getSemaphore cfg g path).2 (getSemaphore cfg g path).1) :
    ∀ k, semValue (dispatch cfg excl g path next).2 k
      = semValue (getSemaphore cfg g path).2 k := by
  intro k
  rw [dispatch_of_acquired cfg excl g path next hs hw hz]
  by_cases hk : k = (getSemaphore cfg g path).1
  · subst hk
    rw [semValue_setSem_self, semValue_setSem_self]
    omega
  · rw [semValue_setSem_of_ne _ _ _ _ hk, semValue_setSem_of_ne _ _ _ _ hk]

theorem dispatch_admit_waiting {ε ρ : Type} (cfg : BulkheadConfig) (excl : List String)
    (g : GateState) (path : String) (next : Except ε ρ)
    (hs : should_skip excl path = false)
    (hw : g.waiting < (cfg.max_waiting : Int))
    (hz : 0 < semValue (getSemaphore cfg g path).2 (getSemaphore cfg g path).1) :
    (dispatch cfg excl g path next).2.waiting = g.waiting := by
  rw [dispatch_of_acquired cfg excl g path next hs hw hz]
  rw [setSem_waiting, setSem_waiting, getSemaphore_waiting]

theorem getSemaphore_key_of_per_path_true (cfg : BulkheadConfig) (g : GateState)
    (path : String) (hp : cfg.per_path = true) :
    (getSemaphore cfg g path).1 = SemKey.path path := by
  cases hm : g.path_semaphores path with
  | some v => rw [getSemaphore_hit cfg g path v hp hm]
  | none => rw [getSemaphore_miss cfg g path hp hm]

theorem getSemaphore_of_resolvedAt (cfg : BulkheadConfig) (g : GateState)
    (path : String)
    (h : cfg.per_path = true → (g.path_semaphores path).isSome = true) :
    (getSemaphore cfg g path).2 = g := by
  by_cases hp : cfg.per_path = false
  · rw [getSemaphore_of_per_path_false cfg g path hp]
  · rw [Bool.not_eq_false] at hp
    obtain ⟨v, hv⟩ := Option.isSome_iff_exists.mp (h hp)
    rw [getSemaphore_hit cfg g path v hp hv]

theorem dispatch_preserves_of_resolvedAt {ε ρ : Type} (cfg : BulkheadConfig)
    (excl : List String) (g : GateState) (path : String) (next : Except ε ρ)
    (h : cfg.per_path = true → (g.path_semaphores path).isSome = true) :
    (∀ k, semValue (dispatch cfg excl g path next).2 k = semValue g k)
    ∧ (cfg.per_path = true →
        ((dispatch cfg excl g path next).2.path_semaphores path).isSome = true) := by
  have hres := getSemaphore_of_resolvedAt cfg g path h
  by_cases hs : should_skip excl path = true
  · rw [dispatch_of_skip cfg excl g path next hs]; exact ⟨fun _ => rfl, h⟩
  · have hs' : should_skip excl path = false := by simpa using hs
    by_cases hw : g.waiting ≥ (cfg.max_waiting : Int)
    · rw [dispatch_of_overload cfg excl g path next hs' hw, hres]
      exact ⟨fun _ => rfl, h⟩
    · have hw' : g.waiting < (cfg.max_waiting : Int) := lt_of_not_le hw
      by_cases hz : semValue (getSemaphore cfg g path).2 (getSemaphore cfg g path).1 = 0
      · rw [dispatch_of_timeout cfg excl g path next hs' hw' hz, hres]
        exact ⟨fun _ => rfl, h⟩
      · have hz' : 0 < semValue (getSemaphore cfg g path).2 (getSemaphore cfg g path).1 :=
          Nat.pos_of_ne_zero hz
        constructor
        · intro k
          rw [dispatch_admit_semValue cfg excl g path next hs' hw' hz', hres]
        · intro hp
          rw [dispatch_of_acquired cfg excl g path next hs' hw' hz']
          have hk := getSemaphore_key_of_per_path_true cfg g path hp
          rw [hk]
          rw [setSem_path_semaphores_self]
          rfl

theorem dispatchIter_semValue {ε ρ : Type} (cfg : BulkheadConfig) (excl : List String)
    (path : String) :
    ∀ (nexts : List (Except ε ρ)) (g : GateState),
      (cfg.per_path = true → (g.path_semaphores path).isSome = true) →
      ∀ k, semValue (dispatchIter cfg excl path nexts g) k = semValue g k := by
  intro nexts
  induction nexts with
  | nil => intro g _ k; rfl
  | cons nx rest ih =>
      intro g h k
      have hd := dispatch_preserves_of_resolvedAt cfg excl g path nx h
      have heq : dispatchIter cfg excl path (nx :: rest) g
          = dispatchIter cfg excl path rest (dispatch cfg excl g path nx).2 := rfl
      rw [heq, ih (dispatch cfg excl g path nx).2 hd.2 k, hd.1 k]

/-- C2: for every non-skipped request with the waiting counter at or above
`max_waiting` at check time, dispatch returns exactly the 503 response with
body `{error: true, message: "Service overloaded", retry_after: 5}` and
header `Retry-After: 5`; the waiting counter and the global free-permit
count are unchanged, and no permit is taken from any pool (every existing
pool entry keeps its free-permit count). -/
theorem C2_overload_response {ε ρ : Type} (cfg : BulkheadConfig) (excl : List String)
    (g : GateState) (path : String) (next : Except ε ρ)
    (hs : should_skip excl path = false)
    (hw : g.waiting ≥ (cfg.max_waiting : Int)) :
    (dispatch cfg excl g path next).1 =
      Except.ok (DispatchResult.middleware
        { status_code := 503
          content := { error := true, message := "Service overloaded", retry_after := some 5 }
          headers := [("Retry-After", "5")] })
    ∧ (dispatch cfg excl g path next).2.waiting = g.waiting
    ∧ (dispatch cfg excl g path next).2.semaphore = g.semaphore
    ∧ ∀ p v, g.path_semaphores p = some v →
        (dispatch cfg excl g path next).2.path_semaphores p = some v := by
  rw [dispatch_of_overload cfg excl g path next hs hw]
  exact ⟨rfl, getSemaphore_waiting .., getSemaphore_semaphore ..,
    fun p v h => getSemaphore_pools_mono cfg g path p v h⟩

theorem C2_overload_response_witness :
    ((dispatch { max_waiting := 0 : BulkheadConfig } []
        (initGate { max_waiting := 0 }) "/x"
        (Except.ok (0 : Nat)) : Except Nat (DispatchResult Nat) × GateState).1 =
      Except.ok (DispatchResult.middleware
        { status_code := 503
          content := { error := true, message := "Service overloaded", retry_after := some 5 }
          headers := [("Retry-After", "5")] })) :=
  (C2_overload_response { max_waiting := 0 } [] (initGate { max_waiting := 0 }) "/x"
    (Except.ok 0) rfl (by decide)).1

/-- C3: for every non-skipped waiting request whose permit acquisition does
not complete within `timeout` (in this single-request model: the resolved
pool has no free permit and none is released during the wait), dispatch
returns exactly the 503 response with body `{error: true, message:
"Request timeout waiting for resources"}` and no headers (hence no
`Retry-After`), the waiting counter ends at its pre-wait value (the
increment is undone by the `finally`), and no permit of any pool is taken
or released by the request. -/
theorem C3_timeout_response {ε ρ : Type} (cfg : BulkheadConfig) (excl : List String)
    (g : GateState) (path : String) (next : Except ε ρ)
    (hs : should_skip excl path = false)
    (hw : g.waiting < (cfg.max_waiting : Int))
    (hz : semValue (getSemaphore cfg g path).2 (getSemaphore cfg g path).1 = 0) :
    (dispatch cfg excl g path next).1 =
      Except.ok (DispatchResult.middleware
        { status_code := 503
          content := { error := true
                       message := "Request timeout waiting for resources"
                       retry_after := none }
          headers := [] })
    ∧ (dispatch cfg excl g path next).2.waiting = g.waiting
    ∧ ∀ k, semValue (dispatch cfg excl g path next).2 k
        = semValue (getSemaphore cfg g path).2 k := by
  rw [dispatch_of_timeout cfg excl g path next hs hw hz]
  exact ⟨rfl, getSemaphore_waiting .., fun _ => rfl⟩

theorem C3_timeout_response_witness :
    ((dispatch {} []
        { waiting := 0, semaphore := 0, path_semaphores := fun _ => none } "/x"
        (Except.ok (0 : Nat)) : Except Nat (DispatchResult Nat) × GateState).1 =
      Except.ok (DispatchResult.middleware
        { status_code := 503
          content := { error := true
                       message := "Request timeout waiting for resources"
                       retry_after := none }
          headers := [] })) :=
  (C3_timeout_response {} [] { waiting := 0, semaphore := 0, path_semaphores := fun _ => none }
    "/x" (Except.ok 0) rfl (by decide) rfl).1

/-- C4: for every admitted request the permit returns to the same
partition's pool on every exit path from the downstream call — normal
return and raised error alike (the `finally` also runs on cancellation,
which raises through `call_next`) — a downstream error is propagated to the
caller unchanged, and sequential non-overlapping requests never permanently
exhaust a pool: iterating `dispatch` over any list of downstream outcomes
(in particular `max_concurrent` of them) leaves every free-permit count
unchanged once the request path's pool exists. -/
theorem C4_release_on_every_exit {ε ρ : Type} (cfg : BulkheadConfig)
    (excl : List String) (g : GateState) (path : String)
    (hs : should_skip excl path = false)
    (hw : g.waiting < (cfg.max_waiting : Int))
    (hz : 0 < semValue (getSemaphore cfg g path).2 (getSemaphore cfg g path).1) :
    (∀ r : ρ, (dispatch cfg excl g path (Except.ok r)
        : Except ε (DispatchResult ρ) × GateState).1
        = Except.ok (DispatchResult.downstream r))
    ∧ (∀ e : ε, (dispatch cfg excl g path (Except.error e)
        : Except ε (DispatchResult ρ) × GateState).1
        = Except.error e)
    ∧ (∀ next : Except ε ρ, ∀ k, semValue (dispatch cfg excl g path next).2 k
        = semValue (getSemaphore cfg g path).2 k)
    ∧ (∀ g' : GateState,
        (cfg.per_path = true → (g'.path_semaphores path).isSome = true) →
        ∀ nexts : List (Except ε ρ), ∀ k,
          semValue (dispatchIter cfg excl path nexts g') k = semValue g' k) := by
  refine ⟨?_, ?_, ?_, ?_⟩
  · intro r
    rw [dispatch_of_acquired cfg excl g path (Except.ok r) hs hw hz]; rfl
  · intro e
    rw [dispatch_of_acquired cfg excl g path (Except.error e) hs hw hz]; rfl
  · intro next k
    exact dispatch_admit_semValue cfg excl g path next hs hw hz k
  · intro g' h nexts k
    exact dispatchIter_semValue cfg excl path nexts g' h k

theorem C4_release_on_every_exit_witness :
    ((dispatch {} [] (initGate {}) "/x" (Except.error (7 : Nat))
        : Except Nat (DispatchResult Nat) × GateState).1 = Except.error 7) :=
  (C4_release_on_every_exit {} [] (initGate {}) "/x" rfl (by decide) (by decide)).2.1 7

/-- C9: a request matching an exclusion rule is delegated immediately with
the gate state returned untouched (same waiting counter, same pools, same
pool map), and for every admitted request the caller receives exactly the
object the downstream handler produced, unmodified. -/
theorem C9_skip_and_passthrough {ε ρ : Type} (cfg : BulkheadConfig)
    (excl : List String) (g : GateState) (path : String) :
    (∀ next : Except ε ρ, should_skip excl path = true →
        dispatch cfg excl g path next = (next.map DispatchResult.downstream, g))
    ∧ (∀ r : ρ, should_skip excl path = false →
        g.waiting < (cfg.max_waiting : Int) →
        0 < semValue (getSemaphore cfg g path).2 (getSemaphore cfg g path).1 →
        (dispatch cfg excl g path (Except.ok r)
          : Except ε (DispatchResult ρ) × GateState).1
          = Except.ok (DispatchResult.downstream r)) := by
  constructor
  · intro next h; exact dispatch_of_skip cfg excl g path next h
  · intro r hs hw hz
    rw [dispatch_of_acquired cfg excl g path (Except.ok r) hs hw hz]; rfl

theorem C9_skip_and_passthrough_witness :
    dispatch {} ["/health"] (initGate {}) "/health" (Except.ok (0 : Nat))
      = ((Except.ok (DispatchResult.downstream 0) : Except Nat (DispatchResult Nat)),
         initGate {}) :=
  (C9_skip_and_passthrough {} ["/health"] (initGate {}) "/health").1
    (Except.ok 0) rfl

/-- C10: passing keyword `max_concurrent=0` to the constructor is silently
ignored by the `if max_concurrent:` truthiness check, leaving
`config.max_concurrent` (indeed the whole config) at its prior value; any
nonzero value overwrites `config.max_concurrent` and sizes the global
semaphore accordingly; hence a zero limit cannot be produced through this
keyword when the prior value is nonzero. -/
theorem C10_zero_keyword_ignored (cfg : BulkheadConfig)
    (excl : Option (List String)) :
    (BulkheadMiddleware_mk (some cfg) (some 0) excl).config = cfg
    ∧ (∀ v : Nat, v ≠ 0 →
        (BulkheadMiddleware_mk (some cfg) (some v) excl).config.max_concurrent = v
        ∧ (BulkheadMiddleware_mk (some cfg) (some v) excl).gate.semaphore = v)
    ∧ (∀ mc : Option Nat, cfg.max_concurrent ≠ 0 →
        (BulkheadMiddleware_mk (some cfg) mc excl).config.max_concurrent ≠ 0) := by
  refine ⟨rfl, ?_, ?_⟩
  · intro v hv
    have hb : (v != 0) = true := by simpa using hv
    constructor <;> simp [BulkheadMiddleware_mk, hb, initGate]
  · intro mc h
    cases mc with
    | none => exact h
    | some v =>
        by_cases hv : v = 0
        · subst hv; exact h
        · have hb : (v != 0) = true := by simpa using hv
          simpa [BulkheadMiddleware_mk, hb] using hv

theorem C10_zero_keyword_ignored_witness :
    (BulkheadMiddleware_mk (some { max_concurrent := 7 }) (some 0) none).config.max_concurrent = 7
    ∧ (BulkheadMiddleware_mk (some { max_concurrent := 7 }) (some 5) none).gate.semaphore = 5 :=
  ⟨congrArg BulkheadConfig.max_concurrent
      (C10_zero_keyword_ignored { max_concurrent := 7 } none).1,
   ((C10_zero_keyword_ignored { max_concurrent := 7 } none).2.1 5 (by decide)).2⟩

/-- C7: the pool lookup is idempotent and deterministic.  With `per_path`
false every call returns the fixed global semaphore (created with size
`max_concurrent` by `__init__`) and leaves the registry untouched,
regardless of path.  With `per_path` true, the first call for a key creates
a pool of size `path_limits.get(key, max_concurrent)` — exact string match,
no normalization, other entries untouched — and every subsequent call for
that key returns the same registry entry with the registry unchanged;
calling again on the resulting state returns the identical key and state. -/
theorem C7_registry_idempotent (cfg : BulkheadConfig) (g : GateState)
    (path : String) :
    (cfg.per_path = false →
        getSemaphore cfg g path = (SemKey.global, g)
        ∧ (initGate cfg).semaphore = cfg.max_concurrent)
    ∧ (cfg.per_path = true → g.path_semaphores path = none →
        (getSemaphore cfg g path).1 = SemKey.path path
        ∧ ((getSemaphore cfg g path).2).path_semaphores path
            = some ((cfg.path_limits path).getD cfg.max_concurrent)
        ∧ ∀ q, q ≠ path →
            ((getSemaphore cfg g path).2).path_semaphores q = g.path_semaphores q)
    ∧ (cfg.per_path = true → ∀ v, g.path_semaphores path = some v →
        getSemaphore cfg g path = (SemKey.path path, g))
    ∧ getSemaphore cfg ((getSemaphore cfg g path).2) path
        = ((getSemaphore cfg g path).1, (getSemaphore cfg g path).2) := by
  refine ⟨?_, ?_, ?_, ?_⟩
  · intro hp; exact ⟨getSemaphore_of_per_path_false cfg g path hp, rfl⟩
  · intro hp hm
    rw [getSemaphore_miss cfg g path hp hm]
    exact ⟨rfl, setSem_path_semaphores_self ..,
      fun q hq => setSem_path_semaphores_of_ne g path _ q hq⟩
  · intro hp v hv; exact getSemaphore_hit cfg g path v hp hv
  · by_cases hp : cfg.per_path = false
    · rw [getSemaphore_of_per_path_false cfg g path hp,
        getSemaphore_of_per_path_false cfg g path hp]
    · rw [Bool.not_eq_false] at hp
      cases hm : g.path_semaphores path with
      | some v =>
          rw [getSemaphore_hit cfg g path v hp hm,
            getSemaphore_hit cfg g path v hp hm]
      | none =>
          rw [getSemaphore_miss cfg g path hp hm]
          exact getSemaphore_hit cfg _ path _ hp (setSem_path_semaphores_self ..)

theorem C7_registry_idempotent_witness :
    ((getSemaphore { per_path := true, path_limits := fun p => if p = "/x" then some 3 else none }
        (initGate { per_path := true }) "/x").2).path_semaphores "/x" = some 3 :=
  ((C7_registry_idempotent
      { per_path := true, path_limits := fun p => if p = "/x" then some 3 else none }
      (initGate { per_path := true }) "/x").2.1 rfl rfl).2.1

/-- C6 counterexample: with `per_path = true` and the waiting counter
already at `max_waiting`, dispatch still resolves the partition first (line
98 of the source runs before the check at line 101): the overload-rejected
request creates a pool-map entry for the previously unseen path, refuting
the claim that the fast-reject check precedes partition resolution. -/
theorem C6_counterexample :
    ((dispatch cfgC6 [] (initGate cfgC6) "/new"
        (Except.ok (0 : Nat)) : Except Nat (DispatchResult Nat) × GateState).1
      = Except.ok (DispatchResult.middleware overloadResponse))
    ∧ (initGate cfgC6).path_semaphores "/new" = none
    ∧ ((dispatch cfgC6 [] (initGate cfgC6) "/new"
        (Except.ok (0 : Nat)) : Except Nat (DispatchResult Nat) × GateState).2.path_semaphores "/new"
      = some 100) :=
  ⟨rfl, rfl, rfl⟩

/-- C6 amended: for every non-skipped request rejected by the overload
check, the partition is resolved via the registry before the check, so the
resulting state is exactly the registry state after resolution: the waiting
counter, the global free-permit count and every existing pool entry are
unchanged and no permit is consumed, but with `per_path = true` a
previously unseen path does get a new full-capacity entry in the pool
map. -/
theorem C6_amended_resolution_first {ε ρ : Type} (cfg : BulkheadConfig)
    (excl : List String) (g : GateState) (path : String) (next : Except ε ρ)
    (hs : should_skip excl path = false)
    (hw : g.waiting ≥ (cfg.max_waiting : Int)) :
    (dispatch cfg excl g path next).2 = (getSemaphore cfg g path).2
    ∧ (dispatch cfg excl g path next).2.waiting = g.waiting
    ∧ (dispatch cfg excl g path next).2.semaphore = g.semaphore
    ∧ (∀ p v, g.path_semaphores p = some v →
        (dispatch cfg excl g path next).2.path_semaphores p = some v)
    ∧ (cfg.per_path = true → g.path_semaphores path = none →
        (dispatch cfg excl g path next).2.path_semaphores path
          = some ((cfg.path_limits path).getD cfg.max_concurrent)) := by
  rw [dispatch_of_overload cfg excl g path next hs hw]
  refine ⟨rfl, getSemaphore_waiting .., getSemaphore_semaphore ..,
    fun p v h => getSemaphore_pools_mono cfg g path p v h, ?_⟩
  intro hp hm
  rw [getSemaphore_miss cfg g path hp hm]
  exact setSem_path_semaphores_self ..

theorem C6_amended_resolution_first_witness :
    ((dispatch cfgC6 [] (initGate cfgC6) "/y"
        (Except.ok (0 : Nat)) : Except Nat (DispatchResult Nat) × GateState).2.path_semaphores "/y"
      = some 100) :=
  (C6_amended_resolution_first cfgC6 [] (initGate cfgC6) "/y" (Except.ok 0)
    rfl (by decide)).2.2.2.2 rfl rfl

/-- C5 counterexample: with `max_concurrent = 1`, `max_waiting = 0`,
`timeout = 1.0`, the very first request A is not admitted: the check
`_waiting >= max_waiting` fires on `0 >= 0`, so A itself receives the
overload rejection instead of acquiring the permit. -/
theorem C5_counterexample :
    (dispatch cfgC5 [] (initGate cfgC5) "/x"
        (Except.ok (0 : Nat)) : Except Nat (DispatchResult Nat) × GateState).1
      = Except.ok (DispatchResult.middleware overloadResponse) := rfl

/-- C5 amended: with `max_concurrent = 1`, `max_waiting = 0`,
`timeout = 1.0`, every non-skipped request — the first request A included,
and hence also any request B arriving while another is in flight — receives
the immediate overload rejection (503 with `retry_after = 5`), which is not
the timeout response; no request is ever admitted, so none holds the
permit. -/
theorem C5_amended_zero_queue_rejects_all {ε ρ : Type} (excl : List String)
    (g : GateState) (path : String) (next : Except ε ρ)
    (hs : should_skip excl path = false)
    (hnn : 0 ≤ g.waiting) :
    (dispatch cfgC5 excl g path next).1
        = Except.ok (DispatchResult.middleware overloadResponse)
    ∧ overloadResponse.status_code = 503
    ∧ overloadResponse.content.retry_after = some 5
    ∧ overloadResponse ≠ timeoutResponse := by
  have hw : g.waiting ≥ (cfgC5.max_waiting : Int) := by
    simpa [cfgC5] using hnn
  rw [dispatch_of_overload cfgC5 excl g path next hs hw]
  exact ⟨rfl, rfl, rfl, by decide⟩

theorem C5_amended_zero_queue_rejects_all_witness :
    ((dispatch cfgC5 [] (initGate cfgC5) "/x"
        (Except.ok (1 : Nat)) : Except Nat (DispatchResult Nat) × GateState).1
      = Except.ok (DispatchResult.middleware overloadResponse)) :=
  (C5_amended_zero_queue_rejects_all [] (initGate cfgC5) "/x" (Except.ok 1)
    rfl (by decide)).1

theorem countP_set_add {α : Type} (f : α → Bool) :
    ∀ (l : List α) (i : Nat) (a b : α), l[i]? = some a →
      (l.set i b).countP f + (if f a = true then 1 else 0)
        = l.countP f + (if f b = true then 1 else 0) := by
  intro l
  induction l with
  | nil => intro i a b h; simp at h
  | cons x xs ih =>
      intro i a b h
      cases i with
      | zero =>
          rw [List.getElem?_cons_zero] at h
          obtain rfl : x = a := by injection h
          rw [List.set_cons_zero, List.countP_cons, List.countP_cons]
          by_cases hfa : f x = true <;> by_cases hfb : f b = true <;>
            simp [hfa, hfb]
      | succ n =>
          rw [List.getElem?_cons_succ] at h
          rw [List.set_cons_succ, List.countP_cons, List.countP_cons]
          have := ih n a b h
          omega

theorem decide_executing_eq (k k' : SemKey) :
    (decide (RPhase.executing k = RPhase.executing k')) = decide (k = k') := by
  by_cases h : k = k' <;> simp [h]

theorem setSem_isSome_mono (g : GateState) (k : SemKey) (v : Nat) (q : String)
    (h : (g.path_semaphores q).isSome = true) :
    ((setSem g k v).path_semaphores q).isSome = true := by
  cases k with
  | global => exact h
  | path p =>
      by_cases hq : q = p
      · subst hq; rw [setSem_path_semaphores_self]; rfl
      · rw [setSem_path_semaphores_of_ne g p v q hq]; exact h

theorem getSemaphore_isSome_mono (cfg : BulkheadConfig) (g : GateState)
    (path q : String) (h : (g.path_semaphores q).isSome = true) :
    (((getSemaphore cfg g path).2).path_semaphores q).isSome = true := by
  obtain ⟨v, hv⟩ := Option.isSome_iff_exists.mp h
  rw [getSemaphore_pools_mono cfg g path q v hv]
  rfl

theorem getSemaphore_key_live (cfg : BulkheadConfig) (g : GateState)
    (path : String) :
    ∀ p, (getSemaphore cfg g path).1 = SemKey.path p →
      (((getSemaphore cfg g path).2).path_semaphores p).isSome = true := by
  intro p hk
  by_cases hp : cfg.per_path = false
  · rw [getSemaphore_of_per_path_false cfg g path hp] at hk
    exact absurd hk (by simp)
  · rw [Bool.not_eq_false] at hp
    cases hm : g.path_semaphores path with
    | some v =>
        rw [getSemaphore_hit cfg g path v hp hm] at hk ⊢
        obtain rfl : path = p := by injection hk
        rw [hm]; rfl
    | none =>
        rw [getSemaphore_miss cfg g path hp hm] at hk ⊢
        obtain rfl : path = p := by injection hk
        rw [setSem_path_semaphores_self]; rfl

theorem resolve_gate_cases (cfg : BulkheadConfig) (g : GateState) (path : String) :
    (getSemaphore cfg g path).2 = g
    ∨ (cfg.per_path = true ∧ g.path_semaphores path = none
        ∧ (getSemaphore cfg g path).2
          = setSem g (SemKey.path path) ((cfg.path_limits path).getD cfg.max_concurrent)) := by
  by_cases hp : cfg.per_path = false
  · left; rw [getSemaphore_of_per_path_false cfg g path hp]
  · rw [Bool.not_eq_false] at hp
    cases hm : g.path_semaphores path with
    | some v => left; rw [getSemaphore_hit cfg g path v hp hm]
    | none => right; exact ⟨hp, rfl, by rw [getSemaphore_miss cfg g path hp hm]⟩

theorem waitCount_set_add (l : List RPhase) (i : Nat) (a b : RPhase)
    (h : l[i]? = some a) :
    waitCount (l.set i b) + (if isWaitingPhase a = true then 1 else 0)
      = waitCount l + (if isWaitingPhase b = true then 1 else 0) :=
  countP_set_add isWaitingPhase l i a b h

theorem held_set_add (l : List RPhase) (i : Nat) (a b : RPhase) (k : SemKey)
    (h : l[i]? = some a) :
    held (l.set i b) k + (if (decide (a = RPhase.executing k)) = true then 1 else 0)
      = held l k + (if (decide (b = RPhase.executing k)) = true then 1 else 0) :=
  countP_set_add (fun r => decide (r = RPhase.executing k)) l i a b h

theorem held_zero_of_no_pool {cfg : BulkheadConfig} {s : SysState}
    (hinv : GateInv cfg s) (p : String)
    (hm : s.gate.path_semaphores p = none) :
    held s.reqs (SemKey.path p) = 0 := by
  by_contra hne
  have hpos : 0 < held s.reqs (SemKey.path p) := Nat.pos_of_ne_zero hne
  rw [held] at hpos
  obtain ⟨r, hr, hdec⟩ := List.countP_pos_iff.mp hpos
  obtain rfl : r = RPhase.executing (SemKey.path p) := of_decide_eq_true hdec
  have := hinv.live _ hr p rfl
  rw [hm] at this
  exact absurd this (by simp)

theorem gateInv_init (cfg : BulkheadConfig) : GateInv cfg (initState cfg) := by
  constructor
  · rfl
  · simp [initState, initGate, held]
  · intro p v hv; exact absurd hv (by simp [initState, initGate])
  · intro r hr; exact absurd hr (by simp [initState])

theorem gateInv_arrive {cfg : BulkheadConfig} {s : SysState} (path : String)
    (hinv : GateInv cfg s) :
    GateInv cfg { gate := s.gate, reqs := s.reqs ++ [RPhase.start path] } := by
  have hwc : waitCount (s.reqs ++ [RPhase.start path]) = waitCount s.reqs := by
    simp [waitCount, List.countP_append, isWaitingPhase]
  have hheld : ∀ k, held (s.reqs ++ [RPhase.start path]) k = held s.reqs k := by
    intro k; simp [held, List.countP_append]
  constructor
  · show s.gate.waiting = (waitCount (s.reqs ++ [RPhase.start path]) : Int)
    rw [hwc]; exact hinv.waiting_eq
  · show s.gate.semaphore + held (s.reqs ++ [RPhase.start path]) SemKey.global
      = cfg.max_concurrent
    rw [hheld]; exact hinv.global_eq
  · intro p v hv
    show v + held (s.reqs ++ [RPhase.start path]) (SemKey.path p)
      = limitOf cfg (SemKey.path p)
    rw [hheld]; exact hinv.path_eq p v hv
  · intro r hr p hk
    rcases List.mem_append.mp hr with hold | hnew
    · exact hinv.live r hold p hk
    · obtain rfl : r = RPhase.start path := by simpa using hnew
      exact absurd hk (by simp [keyOf])

theorem gateInv_resolve {cfg : BulkheadConfig} {s : SysState} {i : Nat}
    {path : String} (h : s.reqs[i]? = some (RPhase.start path))
    (hinv : GateInv cfg s) :
    GateInv cfg { gate := (getSemaphore cfg s.gate path).2,
                  reqs := s.reqs.set i
                    (RPhase.resolved (getSemaphore cfg s.gate path).1) } := by
  have hwc : waitCount (s.reqs.set i
      (RPhase.resolved (getSemaphore cfg s.gate path).1)) = waitCount s.reqs := by
    have := waitCount_set_add s.reqs i _
      (RPhase.resolved (getSemaphore cfg s.gate path).1) h
    simpa [isWaitingPhase] using this
  have hheld : ∀ k, held (s.reqs.set i
      (RPhase.resolved (getSemaphore cfg s.gate path).1)) k = held s.reqs k := by
    intro k
    have := held_set_add s.reqs i _
      (RPhase.resolved (getSemaphore cfg s.gate path).1) k h
    simpa using this
  have hlive : ∀ r ∈ s.reqs.set i (RPhase.resolved (getSemaphore cfg s.gate path).1),
      ∀ p, keyOf r = some (SemKey.path p) →
        (((getSemaphore cfg s.gate path).2).path_semaphores p).isSome = true := by
    intro r hr p hk
    rcases List.mem_or_eq_of_mem_set hr with hold | hnew
    · exact getSemaphore_isSome_mono cfg s.gate path p (hinv.live r hold p hk)
    · subst hnew
      have hkp : (getSemaphore cfg s.gate path).1 = SemKey.path p := by
        simpa [keyOf] using hk
      exact getSemaphore_key_live cfg s.gate path p hkp
  rcases resolve_gate_cases cfg s.gate path with hg | ⟨hp, hm, hg⟩
  · constructor
    · show ((getSemaphore cfg s.gate path).2).waiting = _
      rw [hg, hwc]; exact hinv.waiting_eq
    · show ((getSemaphore cfg s.gate path).2).semaphore + _ = _
      rw [hg, hheld]; exact hinv.global_eq
    · intro p v hv
      rw [hg] at hv
      show v + held _ (SemKey.path p) = _
      rw [hheld]; exact hinv.path_eq p v hv
    · exact hlive
  · constructor
    · show ((getSemaphore cfg s.gate path).2).waiting = _
      rw [hg, setSem_waiting, hwc]; exact hinv.waiting_eq
    · show ((getSemaphore cfg s.gate path).2).semaphore + _ = _
      rw [hg, setSem_semaphore_path, hheld]; exact hinv.global_eq
    · intro p v hv
      rw [hg] at hv
      show v + held _ (SemKey.path p) = _
      rw [hheld]
      by_cases hpp : p = path
      · subst hpp
        rw [setSem_path_semaphores_self] at hv
        have hv' : (cfg.path_limits p).getD cfg.max_concurrent = v := by
          injection hv
        rw [held_zero_of_no_pool hinv p hm, Nat.add_zero, ← hv']
        rfl
      · rw [setSem_path_semaphores_of_ne _ _ _ _ hpp] at hv
        exact hinv.path_eq p v hv
    · exact hlive

theorem semValue_waiting_update (g : GateState) (w : Int) (k : SemKey) :
    semValue { g with waiting := w } k = semValue g k := by
  cases k <;> rfl

theorem gateInv_reject {cfg : BulkheadConfig} {s : SysState} {i : Nat}
    {key : SemKey} (h : s.reqs[i]? = some (RPhase.resolved key))
    (hinv : GateInv cfg s) :
    GateInv cfg { gate := s.gate, reqs := s.reqs.set i RPhase.rejected } := by
  have hwc : waitCount (s.reqs.set i RPhase.rejected) = waitCount s.reqs := by
    have := waitCount_set_add s.reqs i _ RPhase.rejected h
    simpa [isWaitingPhase] using this
  have hheld : ∀ k, held (s.reqs.set i RPhase.rejected) k = held s.reqs k := by
    intro k
    have := held_set_add s.reqs i _ RPhase.rejected k h
    simpa using this
  constructor
  · show s.gate.waiting = _
    rw [hwc]; exact hinv.waiting_eq
  · show s.gate.semaphore + _ = _
    rw [hheld]; exact hinv.global_eq
  · intro p v hv
    show v + held _ (SemKey.path p) = _
    rw [hheld]; exact hinv.path_eq p v hv
  · intro r hr p hk
    rcases List.mem_or_eq_of_mem_set hr with hold | hnew
    · exact hinv.live r hold p hk
    · subst hnew; exact absurd hk (by simp [keyOf])

theorem gateInv_enterWait {cfg : BulkheadConfig} {s : SysState} {i : Nat}
    {key : SemKey} (h : s.reqs[i]? = some (RPhase.resolved key))
    (hinv : GateInv cfg s) :
    GateInv cfg { gate := { s.gate with waiting := s.gate.waiting + 1 },
                  reqs := s.reqs.set i (RPhase.waiting key) } := by
  have hwc : waitCount (s.reqs.set i (RPhase.waiting key)) = waitCount s.reqs + 1 := by
    have := waitCount_set_add s.reqs i _ (RPhase.waiting key) h
    simpa [isWaitingPhase] using this
  have hheld : ∀ k, held (s.reqs.set i (RPhase.waiting key)) k = held s.reqs k := by
    intro k
    have := held_set_add s.reqs i _ (RPhase.waiting key) k h
    simpa using this
  constructor
  · show s.gate.waiting + 1 = (waitCount (s.reqs.set i (RPhase.waiting key)) : Int)
    have h1 := hinv.waiting_eq
    omega
  · show s.gate.semaphore + _ = _
    rw [hheld]; exact hinv.global_eq
  · intro p v hv
    show v + held _ (SemKey.path p) = _
    rw [hheld]; exact hinv.path_eq p v hv
  · intro r hr p hk
    rcases List.mem_or_eq_of_mem_set hr with hold | hnew
    · exact hinv.live r hold p hk
    · subst hnew
      have hkp : key = SemKey.path p := by simpa [keyOf] using hk
      subst hkp
      exact hinv.live _ (List.getElem?_mem h) p (by simp [keyOf])

theorem gateInv_acquire {cfg : BulkheadConfig} {s : SysState} {i : Nat}
    {key : SemKey} (h : s.reqs[i]? = some (RPhase.waiting key))
    (hv : 0 < semValue s.gate key) (hinv : GateInv cfg s) :
    GateInv cfg { gate := { setSem s.gate key (semValue s.gate key - 1) with
                            waiting := s.gate.waiting - 1 },
                  reqs := s.reqs.set i (RPhase.executing key) } := by
  have hwc : waitCount (s.reqs.set i (RPhase.executing key)) + 1 = waitCount s.reqs := by
    have := waitCount_set_add s.reqs i _ (RPhase.executing key) h
    simpa [isWaitingPhase] using this
  have hheldk : held (s.reqs.set i (RPhase.executing key)) key = held s.reqs key + 1 := by
    have := held_set_add s.reqs i _ (RPhase.executing key) key h
    simpa using this
  have hheldne : ∀ k', k' ≠ key →
      held (s.reqs.set i (RPhase.executing key)) k' = held s.reqs k' := by
    intro k' hk'
    have := held_set_add s.reqs i _ (RPhase.executing key) k' h
    simpa [Ne.symm hk'] using this
  constructor
  · show s.gate.waiting - 1 = (waitCount (s.reqs.set i (RPhase.executing key)) : Int)
    have h1 := hinv.waiting_eq
    omega
  · cases key with
    | global =>
        show s.gate.semaphore - 1
            + held (s.reqs.set i (RPhase.executing SemKey.global)) SemKey.global
          = cfg.max_concurrent
        have h1 := hinv.global_eq
        have h2 : 0 < s.gate.semaphore := hv
        rw [hheldk]
        omega
    | path q =>
        show s.gate.semaphore + held _ SemKey.global = cfg.max_concurrent
        rw [hheldne SemKey.global (by simp)]
        exact hinv.global_eq
  · intro p v' hv'
    cases key with
    | global =>
        show v' + held _ (SemKey.path p) = _
        rw [hheldne (SemKey.path p) (by simp)]
        exact hinv.path_eq p v' hv'
    | path q =>
        by_cases hpq : p = q
        · subst hpq
          have hv2 : (setSem s.gate (SemKey.path p)
              (semValue s.gate (SemKey.path p) - 1)).path_semaphores p = some v' := hv'
          rw [setSem_path_semaphores_self] at hv2
          have hv3 : semValue s.gate (SemKey.path p) - 1 = v' := by injection hv2
          obtain ⟨w, hw⟩ : ∃ w, s.gate.path_semaphores p = some w := by
            cases hm : s.gate.path_semaphores p with
            | none => exact absurd hv (by simp [semValue, hm])
            | some w => exact ⟨w, rfl⟩
          have hsem : semValue s.gate (SemKey.path p) = w := by simp [semValue, hw]
          have hlim := hinv.path_eq p w hw
          have hv0 : 0 < w := by rw [hsem] at hv; exact hv
          show v' + held _ (SemKey.path p) = _
          rw [hheldk]
          omega
        · have hv2 : s.gate.path_semaphores p = some v' := by
            have hx : (setSem s.gate (SemKey.path q)
                (semValue s.gate (SemKey.path q) - 1)).path_semaphores p = some v' := hv'
            rwa [setSem_path_semaphores_of_ne _ _ _ _ hpq] at hx
          show v' + held _ (SemKey.path p) = _
          rw [hheldne (SemKey.path p) (by simp [hpq])]
          exact hinv.path_eq p v' hv2
  · intro r hr p hk
    rcases List.mem_or_eq_of_mem_set hr with hold | hnew
    · exact setSem_isSome_mono s.gate key _ p (hinv.live r hold p hk)
    · subst hnew
      have hkp : key = SemKey.path p := by simpa [keyOf] using hk
      subst hkp
      show ((setSem s.gate (SemKey.path p) _).path_semaphores p).isSome = true
      rw [setSem_path_semaphores_self]; rfl

theorem gateInv_timeout {cfg : BulkheadConfig} {s : SysState} {i : Nat}
    {key : SemKey} (h : s.reqs[i]? = some (RPhase.waiting key))
    (hinv : GateInv cfg s) :
    GateInv cfg { gate := { s.gate with waiting := s.gate.waiting - 1 },
                  reqs := s.reqs.set i RPhase.timedOut } := by
  have hwc : waitCount (s.reqs.set i RPhase.timedOut) + 1 = waitCount s.reqs := by
    have := waitCount_set_add s.reqs i _ RPhase.timedOut h
    simpa [isWaitingPhase] using this
  have hheld : ∀ k, held (s.reqs.set i RPhase.timedOut) k = held s.reqs k := by
    intro k
    have := held_set_add s.reqs i _ RPhase.timedOut k h
    simpa using this
  constructor
  · show s.gate.waiting - 1 = (waitCount (s.reqs.set i RPhase.timedOut) : Int)
    have h1 := hinv.waiting_eq
    omega
  · show s.gate.semaphore + _ = _
    rw [hheld]; exact hinv.global_eq
  · intro p v hv
    show v + held _ (SemKey.path p) = _
    rw [hheld]; exact hinv.path_eq p v hv
  · intro r hr p hk
    rcases List.mem_or_eq_of_mem_set hr with hold | hnew
    · exact hinv.live r hold p hk
    · subst hnew; exact absurd hk (by simp [keyOf])

theorem gateInv_finish {cfg : BulkheadConfig} {s : SysState} {i : Nat}
    {key : SemKey} (h : s.reqs[i]? = some (RPhase.executing key))
    (hinv : GateInv cfg s) :
    GateInv cfg { gate := setSem s.gate key (semValue s.gate key + 1),
                  reqs := s.reqs.set i RPhase.done } := by
  have hwc : waitCount (s.reqs.set i RPhase.done) = waitCount s.reqs := by
    have := waitCount_set_add s.reqs i _ RPhase.done h
    simpa [isWaitingPhase] using this
  have hheldk : held (s.reqs.set i RPhase.done) key + 1 = held s.reqs key := by
    have := held_set_add s.reqs i _ RPhase.done key h
    simpa using this
  have hheldne : ∀ k', k' ≠ key →
      held (s.reqs.set i RPhase.done) k' = held s.reqs k' := by
    intro k' hk'
    have := held_set_add s.reqs i _ RPhase.done k' h
    simpa [Ne.symm hk'] using this
  constructor
  · show (setSem s.gate key _).waiting = _
    rw [setSem_waiting, hwc]; exact hinv.waiting_eq
  · cases key with
    | global =>
        show s.gate.semaphore + 1 + held (s.reqs.set i RPhase.done) SemKey.global
          = cfg.max_concurrent
        have h1 := hinv.global_eq
        omega
    | path q =>
        show s.gate.semaphore + held _ SemKey.global = cfg.max_concurrent
        rw [hheldne SemKey.global (by simp)]
        exact hinv.global_eq
  · intro p v hv
    cases key with
    | global =>
        show v + held _ (SemKey.path p) = _
        rw [hheldne (SemKey.path p) (by simp)]
        exact hinv.path_eq p v hv
    | path q =>
        by_cases hpq : p = q
        · subst hpq
          have hv2 : (setSem s.gate (SemKey.path p)
              (semValue s.gate (SemKey.path p) + 1)).path_semaphores p = some v := hv
          rw [setSem_path_semaphores_self] at hv2
          have hv3 : semValue s.gate (SemKey.path p) + 1 = v := by injection hv2
          obtain ⟨w, hw⟩ : ∃ w, s.gate.path_semaphores p = some w :=
            Option.isSome_iff_exists.mp
              (hinv.live _ (List.getElem?_mem h) p (by simp [keyOf]))
          have hsem : semValue s.gate (SemKey.path p) = w := by simp [semValue, hw]
          have hlim := hinv.path_eq p w hw
          show v + held (s.reqs.set i RPhase.done) (SemKey.path p)
            = limitOf cfg (SemKey.path p)
          omega
        · have hv2 : s.gate.path_semaphores p = some v := by
            have hx : (setSem s.gate (SemKey.path q)
                (semValue s.gate (SemKey.path q) + 1)).path_semaphores p = some v := hv
            rwa [setSem_path_semaphores_of_ne _ _ _ _ hpq] at hx
          show v + held _ (SemKey.path p) = _
          rw [hheldne (SemKey.path p) (by simp [hpq])]
          exact hinv.path_eq p v hv2
  · intro r hr p hk
    rcases List.mem_or_eq_of_mem_set hr with hold | hnew
    · exact setSem_isSome_mono s.gate key _ p (hinv.live r hold p hk)
    · subst hnew; exact absurd hk (by simp [keyOf])

theorem gateInv_step {cfg : BulkheadConfig} {s s' : SysState}
    (hinv : GateInv cfg s) (hstep : Step cfg s s') : GateInv cfg s' := by
  cases hstep with
  | arrive path => exact gateInv_arrive path hinv
  | resolve i path h => exact gateInv_resolve h hinv
  | reject i key h hw => exact gateInv_reject h hinv
  | enterWait i key h hw => exact gateInv_enterWait h hinv
  | acquire i key h hv => exact gateInv_acquire h hv hinv
  | timeout i key h => exact gateInv_timeout h hinv
  | finish i key h => exact gateInv_finish h hinv

theorem gateInv_reachable {cfg : BulkheadConfig} {s : SysState}
    (h : Reachable cfg s) : GateInv cfg s := by
  induction h with
  | refl => exact gateInv_init cfg
  | tail _ hstep ih => exact gateInv_step ih hstep

theorem held_le_limit {cfg : BulkheadConfig} {s : SysState}
    (hinv : GateInv cfg s) (k : SemKey) : held s.reqs k ≤ limitOf cfg k := by
  cases k with
  | global =>
      have h1 := hinv.global_eq
      show held s.reqs SemKey.global ≤ cfg.max_concurrent
      omega
  | path p =>
      cases hm : s.gate.path_semaphores p with
      | none => rw [held_zero_of_no_pool hinv p hm]; exact Nat.zero_le _
      | some v =>
          have h1 := hinv.path_eq p v hm
          omega

theorem admission_two_steps {cfg : BulkheadConfig} {s : SysState} {i : Nat}
    {key : SemKey} (h : s.reqs[i]? = some (RPhase.resolved key))
    (hw : s.gate.waiting < (cfg.max_waiting : Int))
    (hfree : 0 < semValue s.gate key) :
    ∃ s₁ s₂, Step cfg s s₁ ∧ Step cfg s₁ s₂
      ∧ s₂.reqs[i]? = some (RPhase.executing key) := by
  have hlen : i < s.reqs.length := (List.getElem?_eq_some_iff.mp h).1
  have h1 : (s.reqs.set i (RPhase.waiting key))[i]? = some (RPhase.waiting key) := by
    simp [List.getElem?_set_self, hlen]
  refine ⟨_, _, Step.enterWait s i key h hw, Step.acquire _ i key h1 ?_, ?_⟩
  · rw [semValue_waiting_update]
    exact hfree
  · show ((s.reqs.set i (RPhase.waiting key)).set i (RPhase.executing key))[i]?
      = some (RPhase.executing key)
    simp [List.getElem?_set_self, List.length_set, hlen]

/-- C1: whenever a non-skipped request sees the waiting counter strictly
below `max_waiting` and a free permit in its (resolved) partition pool,
dispatch admits it — the downstream handler's outcome is returned — and in
every state reachable under any interleaving the number of permits held in
any partition never exceeds that partition's limit, `path_limits[path]` if
present and `max_concurrent` otherwise. -/
theorem C1_admit_and_never_exceed {ε ρ : Type} (cfg : BulkheadConfig) :
    (∀ s, Reachable cfg s → ∀ k, held s.reqs k ≤ limitOf cfg k)
    ∧ (∀ (excl : List String) (g : GateState) (path : String) (next : Except ε ρ),
        should_skip excl path = false →
        g.waiting < (cfg.max_waiting : Int) →
        0 < semValue (getSemaphore cfg g path).2 (getSemaphore cfg g path).1 →
        (dispatch cfg excl g path next).1 = next.map DispatchResult.downstream) := by
  constructor
  · intro s hs k
    exact held_le_limit (gateInv_reachable hs) k
  · intro excl g path next hs hw hz
    rw [dispatch_of_acquired cfg excl g path next hs hw hz]

theorem C1_admit_and_never_exceed_witness :
    held (initState ({} : BulkheadConfig)).reqs SemKey.global
      ≤ limitOf ({} : BulkheadConfig) SemKey.global
    ∧ (dispatch {} [] (initGate {}) "/x" (Except.ok (0 : Nat))
        : Except Nat (DispatchResult Nat) × GateState).1
      = Except.ok (DispatchResult.downstream 0) :=
  ⟨(C1_admit_and_never_exceed (ε := Nat) (ρ := Nat) {}).1 _
      Relation.ReflTransGen.refl SemKey.global,
   (C1_admit_and_never_exceed {}).2 [] (initGate {}) "/x" (Except.ok 0)
      rfl (by decide) (by decide)⟩

/-- C8 counterexample: under `cfgC8` (`per_path = true`,
`path_limits = {"/a": 1, "/b": 1}`, `max_waiting = 1`), a reachable
interleaving exists in which one request holds `/a`'s permit, a second
request waits on `/a` — pushing the process-wide waiting counter to
`max_waiting` — and a third request to `/b` is overload-rejected even
though `/b`'s pool has its permit free: the outcome of a `/b` request does
depend on `/a`'s saturation, through the shared waiting counter. -/
theorem C8_counterexample :
    ∃ s : SysState, Reachable cfgC8 s
      ∧ s.reqs[2]? = some RPhase.rejected
      ∧ semValue s.gate (SemKey.path "/b") = 1
      ∧ s.reqs[0]? = some (RPhase.executing (SemKey.path "/a"))
      ∧ s.reqs[1]? = some (RPhase.waiting (SemKey.path "/a")) := by
  have r0 : Reachable cfgC8 (initState cfgC8) := Relation.ReflTransGen.refl
  have r1 := r0.tail (Step.arrive _ "/a")
  have r2 := r1.tail (Step.resolve _ 0 "/a" (by decide))
  have r3 := r2.tail (Step.enterWait _ 0 (SemKey.path "/a") (by decide) (by decide))
  have r4 := r3.tail (Step.acquire _ 0 (SemKey.path "/a") (by decide) (by decide))
  have r5 := r4.tail (Step.arrive _ "/a")
  have r6 := r5.tail (Step.resolve _ 1 "/a" (by decide))
  have r7 := r6.tail (Step.enterWait _ 1 (SemKey.path "/a") (by decide) (by decide))
  have r8 := r7.tail (Step.arrive _ "/b")
  have r9 := r8.tail (Step.resolve _ 2 "/b" (by decide))
  have r10 := r9.tail (Step.reject _ 2 (SemKey.path "/b") (by decide) (by decide))
  exact ⟨_, r10, by decide, by decide, by decide, by decide⟩

/-- C8 amended: under `cfgC8` the pools themselves are isolated — no step
taken by a request routed to another partition ever changes `/b`'s
free-permit count, and a `/b` request at the waiting check with the shared
counter below `max_waiting` and a free `/b` permit can always proceed to
hold `/b`'s permit, irrespective of `/a`'s pool state — but the waiting
counter is process-wide, so waiters queued on `/a` can raise it to
`max_waiting` and cause a `/b` request with a free permit to be
overload-rejected (see the counterexample). -/
theorem C8_amended_pool_isolation :
    (∀ s s', Step cfgC8 s s' →
        semValue s'.gate (SemKey.path "/b") = semValue s.gate (SemKey.path "/b")
        ∨ (∃ i : Nat, s.reqs[i]? = some (RPhase.start "/b")
            ∨ s.reqs[i]? = some (RPhase.waiting (SemKey.path "/b"))
            ∨ s.reqs[i]? = some (RPhase.executing (SemKey.path "/b"))))
    ∧ (∀ (s : SysState) (i : Nat),
        s.reqs[i]? = some (RPhase.resolved (SemKey.path "/b")) →
        s.gate.waiting < (cfgC8.max_waiting : Int) →
        0 < semValue s.gate (SemKey.path "/b") →
        ∃ s₁ s₂, Step cfgC8 s s₁ ∧ Step cfgC8 s₁ s₂
          ∧ s₂.reqs[i]? = some (RPhase.executing (SemKey.path "/b"))) := by
  constructor
  · intro s s' hstep
    cases hstep with
    | arrive path => left; rfl
    | resolve i path h =>
        by_cases hpb : path = "/b"
        · subst hpb; right; exact ⟨i, Or.inl h⟩
        · left
          rcases resolve_gate_cases cfgC8 s.gate path with hg | ⟨hp, hm, hg⟩
          · show semValue (getSemaphore cfgC8 s.gate path).2 (SemKey.path "/b") = _
            rw [hg]
          · show semValue (getSemaphore cfgC8 s.gate path).2 (SemKey.path "/b") = _
            rw [hg]
            exact semValue_setSem_of_ne _ _ _ _ (by simp [Ne.symm hpb])
    | reject i key h hw => left; rfl
    | enterWait i key h hw => left; exact semValue_waiting_update ..
    | acquire i key h hv =>
        by_cases hk : key = SemKey.path "/b"
        · subst hk; right; exact ⟨i, Or.inr (Or.inl h)⟩
        · left
          rw [semValue_waiting_update]
          exact semValue_setSem_of_ne _ _ _ _ (fun hh => hk hh.symm)
    | timeout i key h => left; exact semValue_waiting_update ..
    | finish i key h =>
        by_cases hk : key = SemKey.path "/b"
        · subst hk; right; exact ⟨i, Or.inr (Or.inr h)⟩
        · left; exact semValue_setSem_of_ne _ _ _ _ (fun hh => hk hh.symm)
  · intro s i h hw hfree
    exact admission_two_steps h hw hfree

theorem C8_amended_pool_isolation_witness :
    ∃ s₁ s₂,
      Step cfgC8
        { gate := { waiting := 0, semaphore := 1
                    path_semaphores := fun p => if p = "/b" then some 1 else none }
          reqs := [RPhase.resolved (SemKey.path "/b")] } s₁
      ∧ Step cfgC8 s₁ s₂
      ∧ s₂.reqs[0]? = some (RPhase.executing (SemKey.path "/b")) :=
  C8_amended_pool_isolation.2
    { gate := { waiting := 0, semaphore := 1
                path_semaphores := fun p => if p = "/b" then some 1 else none }
      reqs := [RPhase.resolved (SemKey.path "/b")] }
    0 (by decide) (by decide) (by decide)
